import Mathlib

/-!
# redsocks `utils.c`: a shallow embedding and its properties

The relay helpers of `utils.c` are embedded as pure functions.  Everything the
C code obtains from the kernel or from libevent (return codes, `errno`, the
bytes written back by `recvmsg`) is an explicit argument, and everything it
changes (descriptor table, live bufferevents, output queues) is explicit state.
Arithmetic on `size_t` is arithmetic on `Nat` reduced modulo `2 ^ 64`.
-/

set_option autoImplicit false

namespace Redsocks

/-! ## Machine integers -/

/-- Number of values of a `size_t` (LP64). -/
def SIZE_MOD : Nat := 2 ^ 64

/-- Wrapping `size_t` addition. -/
def size_add (a b : Nat) : Nat := (a + b) % SIZE_MOD

/-- Wrapping `size_t` subtraction. -/
def size_sub (a b : Nat) : Nat := (a + SIZE_MOD - b % SIZE_MOD) % SIZE_MOD

/-- Conversion of a `size_t` to `ev_ssize_t` (two's complement). -/
def to_ssize (x : Nat) : Int :=
  if x % SIZE_MOD < 2 ^ 63 then ((x % SIZE_MOD : Nat) : Int)
  else ((x % SIZE_MOD : Nat) : Int) - (SIZE_MOD : Int)

/-- Conversion of an `ssize_t` to `size_t`. -/
def to_size (x : Int) : Nat := (x % (SIZE_MOD : Int)).toNat

/-- Conversion of an `ssize_t` to `int` (two's complement, 32 bits). -/
def to_int (x : Int) : Int :=
  if x % 2 ^ 32 < 2 ^ 31 then x % 2 ^ 32 else x % 2 ^ 32 - 2 ^ 32

/-! ## libevent buffers -/

/-- An `evbuffer`: its chain of segments, each a contiguous run of bytes.
Segments may be empty. -/
abbrev evbuffer := List (List Nat)

/-- The libevent accessor `evbuffer_get_length`: total bytes stored in the chain. -/
def evbuffer_get_length (buf : evbuffer) : Nat := (buf.map List.length).sum

/-- The parts of a `struct bufferevent` the relay helpers touch. -/
structure bufferevent where
  /-- handle (address) of the object -/
  ptr : Nat
  /-- underlying descriptor -/
  fd : Int
  /-- option bits given at creation, `BEV_OPT_CLOSE_ON_FREE` = 1 -/
  options : Nat
  /-- whether `EV_READ` is enabled -/
  ev_read : Bool
  /-- whether `EV_WRITE` is enabled -/
  ev_write : Bool
  /-- write timeout, when one was set -/
  timeout_write : Option Nat
  /-- field `wm_write.high`, the write high-watermark -/
  wm_write_high : Nat
  /-- input queue, segment by segment -/
  input : evbuffer
  /-- output queue as the byte sequence it holds -/
  output : List Nat
  deriving DecidableEq, Repr

/-- The walk over the chain done by libevent `evbuffer_peek` when `start_at`
is `NULL`: `idx` counts the segments needed, `vec` collects the extents that
fit into the caller's array of `n_vec` entries. -/
def evbuffer_peek_loop (len : Int) (n_vec : Nat) :
    List (List Nat) → Nat → Int → List (List Nat) → Nat × List (List Nat)
  | [], idx, _, vec => (idx, vec)
  | chain :: next, idx, len_so_far, vec =>
    if 0 ≤ len ∧ len ≤ len_so_far then (idx, vec)
    else if idx < n_vec then
      evbuffer_peek_loop len n_vec next (idx + 1) (len_so_far + chain.length) (vec ++ [chain])
    else if len < 0 then (idx, vec)
    else evbuffer_peek_loop len n_vec next (idx + 1) (len_so_far + chain.length) vec

/-- The libevent call `evbuffer_peek(buffer, len, NULL, vec, n_vec)`: returns the
number of extents needed to cover `len` bytes and the extents written to `vec`.
A negative `len` with `n_vec = 0` asks for everything that is stored. -/
def evbuffer_peek (buffer : evbuffer) (len : Int) (n_vec : Nat) : Nat × List (List Nat) :=
  let len := if n_vec = 0 ∧ len < 0 then (evbuffer_get_length buffer : Int) else len
  evbuffer_peek_loop len n_vec buffer 0 0 []

/-! ## `copy_evbuffer` and `get_write_hwm` -/

/-- Source function `get_write_hwm`: the write high-watermark of a bufferevent. -/
def get_write_hwm (bufev : bufferevent) : Nat := bufev.wm_write_high

/-- The bufferevent `b` with its output queue replaced by `out`. -/
def with_output (b : bufferevent) (out : List Nat) : bufferevent := { b with output := out }

/-- The `for` loop of `copy_evbuffer` over the peeked extents.  `write_fails i`
tells whether the `bufferevent_write` issued at index `i` returns non-zero.
The accumulator `out` is the output queue of `dst`. -/
def copy_evbuffer_loop (write_fails : Nat → Bool) (maxlen : Nat) :
    List (List Nat) → Nat → Nat → Nat → List Nat → Nat × List Nat
  | [], _, _, written, out => (written, out)
  | iov :: rest, i, skip, written, out =>
    let len := iov.length
    if len ≤ skip then
      copy_evbuffer_loop write_fails maxlen rest (i + 1) (skip - len) written out
    else
      let len := len - skip
      let len := if maxlen < size_add written len then size_sub maxlen written else len
      if write_fails i then (written, out)
      else
        copy_evbuffer_loop write_fails maxlen rest (i + 1) 0 (size_add written len)
          (out ++ (iov.drop skip).take len)

/-- Source function `copy_evbuffer(dst, src, skip)`: returns the count `written` and `dst` with
its new output queue. -/
def copy_evbuffer (write_fails : Nat → Bool) (dst src : bufferevent) (skip : Nat) :
    Nat × bufferevent :=
  let evbinput := src.input
  let maxlen := size_sub (get_write_hwm dst) dst.output.length
  let maxlen :=
    if maxlen < size_sub (evbuffer_get_length evbinput) skip then maxlen
    else size_sub (evbuffer_get_length evbinput) skip
  let n := (evbuffer_peek evbinput (to_ssize (size_add maxlen skip)) 0).1
  let r := evbuffer_peek evbinput (to_ssize (size_add maxlen skip)) n
  let res := copy_evbuffer_loop write_fails maxlen (r.2.take r.1) 0 skip 0 dst.output
  (res.1, with_output dst res.2)

/-- A bufferevent holding the given queues, other fields at rest. -/
def mk_bev (hwm : Nat) (input : evbuffer) (output : List Nat) : bufferevent :=
  { ptr := 1, fd := 3, options := 0, ev_read := false, ev_write := true,
    timeout_write := none, wm_write_high := hwm, input := input, output := output }

/-- Number of segments the walk of `evbuffer_peek` consumes for a non-negative
`len`, with `len_so_far` bytes covered already. -/
def peek_need (len : Int) : List (List Nat) → Int → Nat
  | [], _ => 0
  | chain :: next, len_so_far =>
    if len ≤ len_so_far then 0 else peek_need len next (len_so_far + chain.length) + 1

/-! ## `red_inet_ntop` -/

/-- Address family `AF_INET`. -/
def AF_INET : Nat := 2
/-- Address family `AF_INET6` (Linux). -/
def AF_INET6 : Nat := 10

/-- The object behind the pointer `sa`, with the fields `red_inet_ntop` reads
through `struct sockaddr_in` and through its cast to `struct sockaddr_in6`.
The port (same bytes for `sin_port` and `sin6_port`) and the addresses are kept
as their bytes in memory order. -/
structure sockaddr_any where
  sin_family : Nat
  sin_port : Nat × Nat
  sin_addr : List Nat
  sin6_addr : List Nat
  deriving DecidableEq, Repr

/-- What a call of `red_inet_ntop` ends in. -/
inductive ntop_result where
  /-- an `assert` failed and aborted the process -/
  | assert_failed : ntop_result
  /-- a write went past the end of the buffer (possible only without assertions) -/
  | undefined : ntop_result
  /-- the call returned `buffer` with this content -/
  | returned (buffer : List Char) : ntop_result
  deriving DecidableEq, Repr

/-- The terminating byte of a C string. -/
def NUL : Char := Char.ofNat 0

/-- The bytes `s` stored into `buf` from offset `off` on. -/
def write_at (buf : List Char) (off : Nat) (s : List Char) : List Char :=
  buf.take off ++ s ++ buf.drop (off + s.length)

/-- The C string that starts at offset `off` of `buf`. -/
def c_string_at (buf : List Char) (off : Nat) : List Char :=
  (buf.drop off).takeWhile (fun c => c != NUL)

/-- The libc call `snprintf(buf + off, size, fmt, ...)` whose full output would be `s`. -/
def snprintf_at (buf : List Char) (off size : Nat) (s : List Char) : List Char :=
  if size = 0 then buf else write_at buf off (s.take (size - 1) ++ [NUL])

/-- The libc conversion `ntohs` of a port given by its two bytes in memory order. -/
def ntohs (port : Nat × Nat) : Nat := port.1 * 256 + port.2

/-- Decimal text of a number, as printed by the conversion `%d`. -/
def decimal (n : Nat) : List Char := Nat.toDigits 10 n

/-- Text that libc `inet_ntop(AF_INET, ...)` produces: dotted quad. -/
def inet_ntop4_text (addr : List Nat) : List Char :=
  List.intercalate ['.'] (addr.map decimal)

/-- The 16-bit words of an IPv6 address given by its bytes. -/
def ip6_words : List Nat → List Nat
  | a :: b :: rest => (a * 256 + b) :: ip6_words rest
  | _ => []

/-- Keep the longer of two runs of zero words, the earlier one on a tie. -/
def longer_run (best : Option (Nat × Nat)) (cur : Nat × Nat) : Option (Nat × Nat) :=
  match best with
  | none => some cur
  | some b => if b.2 < cur.2 then some cur else some b

/-- The scan of libc `inet_ntop6` for the longest run of zero words, as
`(base, len)`. -/
def ip6_best_run : List Nat → Nat → Option (Nat × Nat) → Option (Nat × Nat) → Option (Nat × Nat)
  | [], _, best, cur =>
    match cur with
    | some c => longer_run best c
    | none => best
  | w :: ws, i, best, cur =>
    if w = 0 then
      match cur with
      | none => ip6_best_run ws (i + 1) best (some (i, 1))
      | some c => ip6_best_run ws (i + 1) best (some (c.1, c.2 + 1))
    else
      match cur with
      | some c => ip6_best_run ws (i + 1) (longer_run best c) none
      | none => ip6_best_run ws (i + 1) best none

/-- The formatting loop of libc `inet_ntop6` over the words from index `i` on. -/
def ip6_format (src : List Nat) (all : List Nat) (best : Option (Nat × Nat)) :
    List Nat → Nat → List Char → List Char
  | [], _, tp => tp
  | w :: ws, i, tp =>
    match best with
    | some (base, len) =>
      if base ≤ i ∧ i < base + len then
        ip6_format src all best ws (i + 1) (if i = base then tp ++ [':'] else tp)
      else
        let tp := if i ≠ 0 then tp ++ [':'] else tp
        if i = 6 ∧ base = 0 ∧ (len = 6 ∨ (len = 5 ∧ all.getD 5 0 = 0xffff)) then
          tp ++ inet_ntop4_text (src.drop 12)
        else ip6_format src all best ws (i + 1) (tp ++ Nat.toDigits 16 w)
    | none =>
      let tp := if i ≠ 0 then tp ++ [':'] else tp
      ip6_format src all best ws (i + 1) (tp ++ Nat.toDigits 16 w)

/-- Text that libc `inet_ntop(AF_INET6, ...)` produces for the 16 bytes `src`. -/
def inet_ntop6_text (src : List Nat) : List Char :=
  let words := ip6_words src
  let best := match ip6_best_run words 0 none none with
    | some b => if b.2 < 2 then none else some b
    | none => none
  let tp := ip6_format src words best words 0 []
  match best with
  | some (base, len) => if base + len = 8 then tp ++ [':'] else tp
  | none => tp

/-- The libc call `inet_ntop(af, src, buf + dst, size)` whose presentation text
is `text`: when text and terminator fit into `size` bytes they are stored and
the destination pointer (as an offset into `buf`) is returned, else `NULL`. -/
def inet_ntop (text : List Char) (buf : List Char) (dst size : Nat) : Option Nat × List Char :=
  if text.length + 1 ≤ size then (some dst, write_at buf dst (text ++ [NUL])) else (none, buf)

/-- The array `placeholder` of `red_inet_ntop`, without its terminator. -/
def placeholder : List Char := ['?', '?', '?', ':', '?', '?', '?']

/-- Source function `red_inet_ntop(sa, buffer, buffer_size)`.  `ndebug` tells whether the code
was compiled with `NDEBUG`, which removes the two `assert`s.  Pointers into
`buffer` are offsets; `retval` is `none` for `NULL`. -/
def red_inet_ntop (ndebug : Bool) (sa : sockaddr_any) (buffer_size : Nat) : ntop_result :=
  if ndebug = false ∧ buffer_size < placeholder.length + 1 then ntop_result.assert_failed
  else
    let buffer := List.replicate buffer_size NUL
    if sa.sin_family = AF_INET6 ∧ buffer_size = 0 then ntop_result.undefined
    else
      let r : Option Nat × List Char :=
        if sa.sin_family = AF_INET then
          inet_ntop (inet_ntop4_text sa.sin_addr) buffer 0 buffer_size
        else if sa.sin_family = AF_INET6 then
          inet_ntop (inet_ntop6_text sa.sin6_addr) (write_at buffer 0 ['[']) 1 (buffer_size - 1)
        else (none, buffer)
      match r.1 with
      | some retval =>
        if ndebug = false ∧ retval ≠ 0 then ntop_result.assert_failed
        else
          let len := (c_string_at r.2 retval).length
          if sa.sin_family = AF_INET6 then
            ntop_result.returned (snprintf_at r.2 len (buffer_size - len)
              ([']', ':'] ++ decimal (ntohs sa.sin_port)))
          else
            ntop_result.returned (snprintf_at r.2 len (buffer_size - len)
              ([':'] ++ decimal (ntohs sa.sin_port)))
      | none =>
        if buffer_size < placeholder.length + 1 then ntop_result.undefined
        else ntop_result.returned (write_at r.2 0 (placeholder ++ [NUL]))

/-- The text a caller reads from the returned buffer. -/
def ntop_text (r : ntop_result) : Option String :=
  match r with
  | ntop_result.returned buffer => some (String.mk (c_string_at buffer 0))
  | _ => none

/-- The address 1.2.3.4 port 80. -/
def sample_inet : sockaddr_any :=
  { sin_family := AF_INET, sin_port := (0, 80), sin_addr := [1, 2, 3, 4],
    sin6_addr := List.replicate 16 0 }

/-- The address ::1 port 443. -/
def sample_inet6 : sockaddr_any :=
  { sin_family := AF_INET6, sin_port := (1, 187), sin_addr := [0, 0, 0, 0],
    sin6_addr := [0, 0, 0, 0, 0, 0, 0, 0, 0, 0, 0, 0, 0, 0, 0, 1] }

/-- An address whose family was never set. -/
def sample_unset : sockaddr_any :=
  { sin_family := 0, sin_port := (0, 0), sin_addr := [0, 0, 0, 0],
    sin6_addr := List.replicate 16 0 }

/-! ## `red_recv_udp_pkt` -/

/-- Socket level `SOL_IP` (Linux). -/
def SOL_IP : Int := 0
/-- Option `IP_ORIGDSTADDR` (Linux). -/
def IP_ORIGDSTADDR : Int := 20
/-- The size `sizeof(struct sockaddr_in)`. -/
def sizeof_sockaddr_in : Nat := 16
/-- The header macro `CMSG_LEN(len)`: aligned `sizeof(struct cmsghdr)` plus `len` (LP64). -/
def CMSG_LEN (len : Nat) : Nat := 16 + len

/-- A `struct sockaddr_in` as it lies in memory: the port and the address are
kept as their bytes in memory order (network byte order). -/
structure sockaddr_in where
  sin_family : Nat
  sin_port : Nat × Nat
  sin_addr : List Nat
  sin_zero : List Nat
  deriving DecidableEq, Repr

/-- The result of `memset(toaddr, 0, sizeof(*toaddr))`. -/
def sockaddr_in_zero : sockaddr_in :=
  { sin_family := 0, sin_port := (0, 0), sin_addr := [0, 0, 0, 0],
    sin_zero := [0, 0, 0, 0, 0, 0, 0, 0] }

/-- One ancillary entry: the header fields and the first
`sizeof(struct sockaddr_in)` bytes at `CMSG_DATA`, read as a `sockaddr_in`. -/
structure cmsghdr where
  cmsg_len : Nat
  cmsg_level : Int
  cmsg_type : Int
  data : sockaddr_in
  deriving DecidableEq, Repr

/-- What one `recvmsg` call hands back: its return value, the `msg_namelen` and
source address it wrote, and the ancillary entries in the order
`CMSG_FIRSTHDR` / `CMSG_NXTHDR` visit them.  The field `after_name` holds the
8 bytes that follow `*inaddr` in the memory of the caller when the call has
returned: `red_inet_ntop` reads them when it takes `inaddr` for a
`struct sockaddr_in6`. -/
structure recvmsg_result where
  ret : Int
  msg_namelen : Nat
  msg_name : sockaddr_in
  control : List cmsghdr
  after_name : List Nat
  deriving DecidableEq, Repr

/-- What a call of `red_recv_udp_pkt` ends in. -/
inductive recv_result where
  /-- an `assert` of `red_inet_ntop`, called for the log line, aborted the process -/
  | aborted : recv_result
  /-- a write of `red_inet_ntop` went past the end of its buffer -/
  | undefined : recv_result
  /-- the call returned `ret`, leaving `*toaddr` with this content (`none` for `NULL`) -/
  | returned (ret : Int) (toaddr : Option sockaddr_in) : recv_result
  deriving DecidableEq, Repr

/-- Modelled from the spec: the macro `RED_INET_ADDRSTRLEN` of `utils.h` is not
part of this file; it sizes a buffer large enough for the full text, that is
an opening bracket, `INET6_ADDRSTRLEN` (46) bytes, a closing bracket, a colon,
five port digits and the terminator. -/
def RED_INET_ADDRSTRLEN : Nat := 1 + 46 + 1 + 1 + 5 + 1

/-- The object `red_inet_ntop` finds behind `inaddr`: the fields of the
`sockaddr_in`, and for the `sockaddr_in6` reading the 16 bytes from offset 8,
which are `sin_zero` and the 8 bytes after the structure. -/
def inaddr_object (r : recvmsg_result) : sockaddr_any :=
  { sin_family := r.msg_name.sin_family, sin_port := r.msg_name.sin_port,
    sin_addr := r.msg_name.sin_addr, sin6_addr := r.msg_name.sin_zero ++ r.after_name }

/-- The test of the `if` inside the ancillary loop of `red_recv_udp_pkt`. -/
def is_origdst (cmsg : cmsghdr) : Bool :=
  decide (cmsg.cmsg_level = SOL_IP) && decide (cmsg.cmsg_type = IP_ORIGDSTADDR) &&
    decide (CMSG_LEN sizeof_sockaddr_in ≤ cmsg.cmsg_len)

/-- The ancillary loop of `red_recv_udp_pkt`: every accepted entry overwrites
`*toaddr`, every other entry is only logged. -/
def recv_cmsg_loop : List cmsghdr → sockaddr_in → sockaddr_in
  | [], toaddr => toaddr
  | cmsg :: rest, toaddr =>
    if is_origdst cmsg then recv_cmsg_loop rest cmsg.data
    else recv_cmsg_loop rest toaddr

/-- The branch `if (pktlen >= buflen)` of `red_recv_udp_pkt`: the arguments of
its log line are evaluated, among them `red_inet_ntop(inaddr, buf, sizeof(buf))`
with a local `buf` of `RED_INET_ADDRSTRLEN` bytes, and then -1 is returned. -/
def recv_truncated (ndebug : Bool) (r : recvmsg_result) (toaddr : Option sockaddr_in) :
    recv_result :=
  match red_inet_ntop ndebug (inaddr_object r) RED_INET_ADDRSTRLEN with
  | ntop_result.assert_failed => recv_result.aborted
  | ntop_result.undefined => recv_result.undefined
  | ntop_result.returned _ => recv_result.returned (-1) toaddr

/-- The two checks of `red_recv_udp_pkt` after the ancillary block and its
final `return pktlen` (converted to `int`). -/
def recv_final_checks (ndebug : Bool) (addrlen : Nat) (r : recvmsg_result) (buflen : Nat)
    (toaddr : Option sockaddr_in) : recv_result :=
  let pktlen : Int := r.ret
  if addrlen ≠ sizeof_sockaddr_in then recv_result.returned (-1) toaddr
  else if buflen ≤ to_size pktlen then recv_truncated ndebug r toaddr
  else recv_result.returned (to_int pktlen) toaddr

/-- Source function `red_recv_udp_pkt(fd, buf, buflen, inaddr, toaddr)` on the
outcome `r` of its `recvmsg` call.  `toaddr` is `none` for a `NULL` pointer,
else the old content of `*toaddr`.  `ndebug` tells whether the code was
compiled with `NDEBUG`. -/
def red_recv_udp_pkt (ndebug : Bool) (buflen : Nat) (toaddr : Option sockaddr_in)
    (r : recvmsg_result) : recv_result :=
  let addrlen : Nat := sizeof_sockaddr_in
  let pktlen : Int := r.ret
  if pktlen = -1 then recv_result.returned (-1) toaddr
  else
    match toaddr with
    | some _ =>
      let toaddr := recv_cmsg_loop r.control sockaddr_in_zero
      if toaddr.sin_family ≠ AF_INET then recv_result.returned (-1) (some toaddr)
      else recv_final_checks ndebug addrlen r buflen (some toaddr)
    | none => recv_final_checks ndebug addrlen r buflen none

/-- The destination 203.0.113.5:8080 as a `sockaddr_in`. -/
def sample_dst : sockaddr_in :=
  { sin_family := 2, sin_port := (0x1f, 0x90), sin_addr := [203, 0, 113, 5],
    sin_zero := [0, 0, 0, 0, 0, 0, 0, 0] }

/-- A source address 192.0.2.1:53. -/
def sample_src : sockaddr_in :=
  { sin_family := 2, sin_port := (0, 53), sin_addr := [192, 0, 2, 1],
    sin_zero := [0, 0, 0, 0, 0, 0, 0, 0] }

/-- An ancillary entry of level `SOL_SOCKET`, type `SCM_TIMESTAMP`. -/
def sample_other_cmsg : cmsghdr :=
  { cmsg_len := 32, cmsg_level := 1, cmsg_type := 29, data := sockaddr_in_zero }

/-- An `IP_ORIGDSTADDR` entry carrying `dst`. -/
def origdst_cmsg (dst : sockaddr_in) : cmsghdr :=
  { cmsg_len := CMSG_LEN sizeof_sockaddr_in, cmsg_level := SOL_IP,
    cmsg_type := IP_ORIGDSTADDR, data := dst }

/-- The received data `r` with its ancillary entries replaced. -/
def with_control (r : recvmsg_result) (control : List cmsghdr) : recvmsg_result :=
  { r with control := control }

/-- The received data `r` with another reported source-address length. -/
def with_namelen (r : recvmsg_result) (namelen : Nat) : recvmsg_result :=
  { r with msg_namelen := namelen }

/-- A 100-byte datagram with the given reported name length and ancillary entries. -/
def sample_recv (namelen : Nat) (control : List cmsghdr) : recvmsg_result :=
  { ret := 100, msg_namelen := namelen, msg_name := sample_src, control := control,
    after_name := [0, 0, 0, 0, 0, 0, 0, 0] }

/-- The first 16 bytes of the `sockaddr_in6` for 2001:db8::1 port 53, which is
what `recvmsg` stores into `*inaddr` for a datagram that arrived on an
`AF_INET6` socket. -/
def sample_src6 : sockaddr_in :=
  { sin_family := AF_INET6, sin_port := (0, 53), sin_addr := [0, 0, 0, 0],
    sin_zero := [0x20, 0x01, 0x0d, 0xb8, 0, 0, 0, 0] }

/-- A 100-byte datagram from the source `sample_src6`, without ancillary data. -/
def sample_recv6 : recvmsg_result :=
  { ret := 100, msg_namelen := 28, msg_name := sample_src6, control := [],
    after_name := [0, 0, 0, 0, 0, 0, 0, 0] }

/-! ## Relay set-up: `red_prepare_relay` and `red_connect_relay_tfo` -/

/-- The resources of the process that relay set-up acquires and releases. -/
structure world where
  /-- open descriptors -/
  fds : List Int
  /-- live bufferevents -/
  bevs : List bufferevent
  /-- descriptors handed to `close`, oldest first -/
  closed : List Int
  /-- bufferevents handed to `bufferevent_free`, oldest first -/
  freed : List Nat
  /-- descriptors on which `connect` was issued, oldest first -/
  connects : List Int
  deriving DecidableEq, Repr

/-- What the kernel and libevent answer to the calls of relay set-up.  Return
codes follow C: 0 is success for the `int` results, -1 is failure for
`socket` and `sendto`, the null pointer is 0. -/
structure syscalls where
  socket : Int
  setsockopt : Int
  make_nonblocking : Int
  bufferevent_socket_new : Nat
  bufferevent_enable : Int
  apply_tcp_keepalive : Int
  sendto : Int
  sendto_errno : Int
  connect : Int
  connect_errno : Int
  deriving DecidableEq, Repr

/-- Errno `EAGAIN`, equal to `EWOULDBLOCK` (Linux). -/
def EAGAIN : Int := 11
/-- Errno `EWOULDBLOCK` (Linux). -/
def EWOULDBLOCK : Int := 11
/-- Errno `ENOPROTOOPT` (Linux). -/
def ENOPROTOOPT : Int := 92
/-- Errno `EPROTONOSUPPORT` (Linux). -/
def EPROTONOSUPPORT : Int := 93
/-- Errno `EOPNOTSUPP` (Linux). -/
def EOPNOTSUPP : Int := 95
/-- Errno `ECONNREFUSED` (Linux). -/
def ECONNREFUSED : Int := 111
/-- Errno `EINPROGRESS` (Linux). -/
def EINPROGRESS : Int := 115
/-- The libevent flag `BEV_OPT_CLOSE_ON_FREE`. -/
def BEV_OPT_CLOSE_ON_FREE : Nat := 1

/-- Apply `f` to the first live bufferevent with handle `bev`. -/
def modify_bev (bev : Nat) (f : bufferevent → bufferevent) : List bufferevent → List bufferevent
  | [] => []
  | b :: bs => if b.ptr = bev then f b :: bs else b :: modify_bev bev f bs

/-- Drop the first live bufferevent with handle `bev`. -/
def remove_bev (bev : Nat) : List bufferevent → List bufferevent
  | [] => []
  | b :: bs => if b.ptr = bev then bs else b :: remove_bev bev bs

/-- The first live bufferevent with handle `bev`. -/
def find_bev (bev : Nat) : List bufferevent → Option bufferevent
  | [] => none
  | b :: bs => if b.ptr = bev then some b else find_bev bev bs

/-- The call `socket(AF_INET, SOCK_STREAM, IPPROTO_TCP)` answering `ret`. -/
def sys_socket (w : world) (ret : Int) : world :=
  if ret = -1 then w else { w with fds := ret :: w.fds }

/-- The call `close(fd)`. -/
def sys_close (w : world) (fd : Int) : world :=
  { w with fds := w.fds.erase fd, closed := w.closed ++ [fd] }

/-- The call `connect(fd, addr, sizeof(*addr))`. -/
def sys_connect (w : world) (fd : Int) : world :=
  { w with connects := w.connects ++ [fd] }

/-- Modelled from the spec: `redsocks_close` is defined in `redsocks.c`, outside
this file; it releases the descriptor with `close` (and logs a failure). -/
def redsocks_close (w : world) (fd : Int) : world := sys_close w fd

/-- A bufferevent as `bufferevent_socket_new` leaves it: writing enabled, no
timeout, no watermark, empty queues. -/
def new_bev (ptr : Nat) (fd : Int) (options : Nat) : bufferevent :=
  { ptr := ptr, fd := fd, options := options, ev_read := false, ev_write := true,
    timeout_write := none, wm_write_high := 0, input := [], output := [] }

/-- The libevent call `bufferevent_socket_new(base, fd, options)` answering `ret`. -/
def bufferevent_socket_new (w : world) (ret : Nat) (fd : Int) (options : Nat) : world :=
  if ret = 0 then w else { w with bevs := new_bev ret fd options :: w.bevs }

/-- The world `w` with its live bufferevents replaced. -/
def with_bevs (w : world) (bevs : List bufferevent) : world := { w with bevs := bevs }

/-- Set the given event bits of a bufferevent. -/
def bev_enable (read write : Bool) (b : bufferevent) : bufferevent :=
  { b with ev_read := b.ev_read || read, ev_write := b.ev_write || write }

/-- Clear the given event bits of a bufferevent. -/
def bev_disable (read write : Bool) (b : bufferevent) : bufferevent :=
  { b with ev_read := b.ev_read && !read, ev_write := b.ev_write && !write }

/-- Set the write timeout of a bufferevent. -/
def bev_set_timeout (timeout_write : Nat) (b : bufferevent) : bufferevent :=
  { b with timeout_write := some timeout_write }

/-- The libevent call `bufferevent_enable(bev, events)`; the bits are recorded
whatever the call returns. -/
def bufferevent_enable (w : world) (bev : Nat) (read write : Bool) : world :=
  with_bevs w (modify_bev bev (bev_enable read write) w.bevs)

/-- The libevent call `bufferevent_disable(bev, events)`. -/
def bufferevent_disable (w : world) (bev : Nat) (read write : Bool) : world :=
  with_bevs w (modify_bev bev (bev_disable read write) w.bevs)

/-- The libevent call `bufferevent_set_timeouts(bev, NULL, timeout_write)`. -/
def bufferevent_set_timeouts (w : world) (bev : Nat) (timeout_write : Nat) : world :=
  with_bevs w (modify_bev bev (bev_set_timeout timeout_write) w.bevs)

/-- The libevent call `bufferevent_getfd(bev)`. -/
def bufferevent_getfd (w : world) (bev : Nat) : Int :=
  match find_bev bev w.bevs with
  | some b => b.fd
  | none => -1

/-- The libevent call `bufferevent_free(bev)`: the object goes away, and its
descriptor is closed only when it was created with `BEV_OPT_CLOSE_ON_FREE`. -/
def bufferevent_free (w : world) (bev : Nat) : world :=
  match find_bev bev w.bevs with
  | some b =>
    let w1 : world := { w with bevs := remove_bev bev w.bevs, freed := w.freed ++ [bev] }
    if b.options % 2 = BEV_OPT_CLOSE_ON_FREE then sys_close w1 b.fd else w1
  | none => { w with freed := w.freed ++ [bev] }

/-- The `fail:` label shared by `red_prepare_relay`, `red_connect_relay` and
`red_connect_relay_tfo`. -/
def relay_fail (w : world) (retval : Nat) (relay_fd : Int) : Nat × world :=
  let w := if retval ≠ 0 then bufferevent_free (bufferevent_disable w retval true true) retval
    else w
  let w := if relay_fd ≠ -1 then redsocks_close w relay_fd else w
  (0, w)

/-- The test `ifname && strlen(ifname)`; `none` is the null pointer. -/
def ifname_given (ifname : Option String) : Bool :=
  match ifname with
  | some s => decide (s.length ≠ 0)
  | none => false

/-- Source function `red_prepare_relay(ifname, readcb, writecb, errorcb, cbarg)`: returns the
new bufferevent (0 for `NULL`) and the resources afterwards.  The callbacks are
stored and not called, so they do not appear.  `apply_tcp_keepalive` lives in
`redsocks.c`; only its return code matters here. -/
def red_prepare_relay (sys : syscalls) (ifname : Option String) (w : world) : Nat × world :=
  let retval : Nat := 0
  let relay_fd : Int := sys.socket
  let w := sys_socket w relay_fd
  if relay_fd = -1 then relay_fail w retval relay_fd
  else if ifname_given ifname = true ∧ sys.setsockopt ≠ 0 then relay_fail w retval relay_fd
  else if sys.make_nonblocking ≠ 0 then relay_fail w retval relay_fd
  else
    let retval := sys.bufferevent_socket_new
    let w := bufferevent_socket_new w retval relay_fd 0
    if retval = 0 then relay_fail w retval relay_fd
    else
      let w := bufferevent_enable w retval false true
      if sys.bufferevent_enable ≠ 0 then relay_fail w retval relay_fd
      else if sys.apply_tcp_keepalive ≠ 0 then relay_fail w retval relay_fd
      else (retval, w)

/-- Some step of `red_prepare_relay` fails: socket creation, binding to the
interface (attempted only for a non-empty `ifname`), making the socket
non-blocking, bufferevent creation, enabling write readiness, keepalive. -/
def prepare_step_failed (sys : syscalls) (ifname : Option String) : Prop :=
  sys.socket = -1 ∨ (ifname_given ifname = true ∧ sys.setsockopt ≠ 0) ∨
    sys.make_nonblocking ≠ 0 ∨ sys.bufferevent_socket_new = 0 ∨
    sys.bufferevent_enable ≠ 0 ∨ sys.apply_tcp_keepalive ≠ 0

/-- The call of `red_prepare_relay` gets as far as creating a bufferevent. -/
def prepare_bev_created (sys : syscalls) (ifname : Option String) : Prop :=
  sys.socket ≠ -1 ∧ ¬ (ifname_given ifname = true ∧ sys.setsockopt ≠ 0) ∧
    sys.make_nonblocking = 0 ∧ sys.bufferevent_socket_new ≠ 0

instance (sys : syscalls) (ifname : Option String) : Decidable (prepare_step_failed sys ifname) := by
  unfold prepare_step_failed; infer_instance

instance (sys : syscalls) (ifname : Option String) : Decidable (prepare_bev_created sys ifname) := by
  unfold prepare_bev_created; infer_instance

/-- The resources after the relay socket `fd` and its bufferevent `ptr` were
added to `w`, with the given write timeout. -/
def world_with_relay (w : world) (fd : Int) (ptr : Nat) (timeout_write : Option Nat) : world :=
  { w with fds := fd :: w.fds,
           bevs := { new_bev ptr fd 0 with timeout_write := timeout_write } :: w.bevs }

/-- The part of `red_connect_relay_tfo` from the `fallback:` label on: the
classic `connect`. -/
def tfo_fallback (sys : syscalls) (w : world) (retval : Nat) (relay_fd : Int) :
    Nat × Nat × world :=
  let w := sys_connect w relay_fd
  if sys.connect ≠ 0 ∧ sys.connect_errno ≠ EINPROGRESS then
    let r := relay_fail w retval relay_fd
    (r.1, 0, r.2)
  else (retval, 0, w)

/-- Source function `red_connect_relay_tfo(ifname, addr, ..., timeout_write, data, len)` built
with `MSG_FASTOPEN`: returns the bufferevent (0 for `NULL`), the value left in
`*len`, and the resources afterwards. -/
def red_connect_relay_tfo (sys : syscalls) (ifname : Option String)
    (timeout_write : Option Nat) (len : Nat) (w : world) : Nat × Nat × world :=
  let p := red_prepare_relay sys ifname w
  let retval := p.1
  let w := p.2
  if retval ≠ 0 then
    let relay_fd := bufferevent_getfd w retval
    let w := match timeout_write with
      | some t => bufferevent_set_timeouts w retval t
      | none => w
    let s : Nat := to_size sys.sendto
    if s = to_size (-1) then
      if sys.sendto_errno = EINPROGRESS ∨ sys.sendto_errno = EAGAIN
          ∨ sys.sendto_errno = EWOULDBLOCK then (retval, 0, w)
      else if sys.sendto_errno = EOPNOTSUPP ∨ sys.sendto_errno = EPROTONOSUPPORT
          ∨ sys.sendto_errno = ENOPROTOOPT then tfo_fallback sys w retval relay_fd
      else
        let r := relay_fail w retval relay_fd
        (r.1, 0, r.2)
    else (retval, s, w)
  else (retval, len, w)

/-- Resources before a relay is set up: the standard descriptors open, one
bufferevent alive. -/
def sample_world : world :=
  { fds := [0, 1, 2, 3], bevs := [mk_bev 4096 [] []], closed := [], freed := [],
    connects := [] }

/-- Answers of a kernel that accepts every set-up call, has no fast open
(`sendto` fails with `sendto_errno`) and answers the classic `connect` with
`connect_errno`. -/
def sample_sys (sendto_errno connect_errno : Int) : syscalls :=
  { socket := 5, setsockopt := 0, make_nonblocking := 0, bufferevent_socket_new := 7,
    bufferevent_enable := 0, apply_tcp_keepalive := 0, sendto := -1,
    sendto_errno := sendto_errno, connect := -1, connect_errno := connect_errno }

/-! ## Properties of the machine arithmetic -/

theorem size_add_eq (a b : Nat) (h : a + b < SIZE_MOD) : size_add a b = a + b := by
  unfold size_add; exact Nat.mod_eq_of_lt h

theorem size_sub_eq (a b : Nat) (hb : b ≤ a) (ha : a < SIZE_MOD) : size_sub a b = a - b := by
  unfold size_sub SIZE_MOD at *
  omega

theorem size_sub_lt (a b : Nat) : size_sub a b < SIZE_MOD := by
  unfold size_sub
  exact Nat.mod_lt _ (by unfold SIZE_MOD; norm_num)

/-! ## Properties of the buffer model -/

theorem evbuffer_get_length_nil : evbuffer_get_length [] = 0 := rfl

theorem evbuffer_get_length_cons (c : List Nat) (cs : List (List Nat)) :
    evbuffer_get_length (c :: cs) = c.length + evbuffer_get_length cs := by
  simp [evbuffer_get_length]

theorem evbuffer_get_length_flatten (b : List (List Nat)) :
    b.flatten.length = evbuffer_get_length b := by
  simp [evbuffer_get_length]

theorem evbuffer_get_length_take_le (k : Nat) (b : List (List Nat)) :
    evbuffer_get_length (b.take k) ≤ evbuffer_get_length b := by
  induction b generalizing k with
  | nil => simp
  | cons c cs ih =>
    cases k with
    | zero => simp [evbuffer_get_length_nil]
    | succ k =>
      have := ih k
      simp only [List.take_succ_cons, evbuffer_get_length_cons]
      omega

/-- Once the caller's array is full the walk writes no further extent. -/
theorem evbuffer_peek_loop_full (len : Int) (n_vec : Nat) :
    ∀ (chains : List (List Nat)) (idx : Nat) (len_so_far : Int) (vec : List (List Nat)),
      n_vec ≤ idx → (evbuffer_peek_loop len n_vec chains idx len_so_far vec).2 = vec := by
  intro chains
  induction chains with
  | nil => intro idx sofar vec _; simp [evbuffer_peek_loop]
  | cons c cs ih =>
    intro idx sofar vec hfull
    unfold evbuffer_peek_loop
    split_ifs with h1 h2 h3
    · rfl
    · omega
    · rfl
    · exact ih (idx + 1) (sofar + c.length) vec (by omega)

/-- Whatever `len` and `n_vec` are, the extents returned by the walk are the
first few segments of the chain, in order. -/
theorem evbuffer_peek_loop_take (len : Int) (n_vec : Nat) :
    ∀ (chains : List (List Nat)) (idx : Nat) (len_so_far : Int) (vec : List (List Nat)),
      ∃ k, (evbuffer_peek_loop len n_vec chains idx len_so_far vec).2 = vec ++ chains.take k := by
  intro chains
  induction chains with
  | nil => intro idx sofar vec; exact ⟨0, by simp [evbuffer_peek_loop]⟩
  | cons c cs ih =>
    intro idx sofar vec
    unfold evbuffer_peek_loop
    split_ifs with h1 h2 h3
    · exact ⟨0, by simp⟩
    · obtain ⟨k, hk⟩ := ih (idx + 1) (sofar + c.length) (vec ++ [c])
      exact ⟨k + 1, by simp [hk]⟩
    · exact ⟨0, by simp⟩
    · obtain ⟨k, hk⟩ := ih (idx + 1) (sofar + c.length) vec
      refine ⟨0, ?_⟩
      rw [evbuffer_peek_loop_full len n_vec cs (idx + 1) _ vec (by omega)]
      simp

/-- For a non-negative `len` the walk stops after `peek_need` segments and has
written as many of them as fit into the array. -/
theorem evbuffer_peek_loop_nonneg (len : Int) (n_vec : Nat) (hlen : 0 ≤ len) :
    ∀ (chains : List (List Nat)) (idx : Nat) (len_so_far : Int) (vec : List (List Nat)),
      evbuffer_peek_loop len n_vec chains idx len_so_far vec =
        (idx + peek_need len chains len_so_far,
         vec ++ chains.take (min (peek_need len chains len_so_far) (n_vec - idx))) := by
  intro chains
  induction chains with
  | nil => intro idx sofar vec; simp [evbuffer_peek_loop, peek_need]
  | cons c cs ih =>
    intro idx sofar vec
    unfold evbuffer_peek_loop peek_need
    by_cases h1 : len ≤ sofar
    · simp [h1, hlen]
    · simp only [h1, and_false, if_false]
      by_cases h2 : idx < n_vec
      · simp only [h2, if_true]
        rw [ih]
        have e : min (peek_need len cs (sofar + c.length) + 1) (n_vec - idx)
            = min (peek_need len cs (sofar + c.length)) (n_vec - (idx + 1)) + 1 := by omega
        rw [e]
        simp [Nat.add_assoc, Nat.add_comm 1]
      · have h3 : ¬ len < 0 := by omega
        simp only [h2, h3, if_false]
        rw [ih]
        have e1 : n_vec - (idx + 1) = 0 := by omega
        have e2 : n_vec - idx = 0 := by omega
        simp [e1, e2, Nat.add_assoc, Nat.add_comm 1]

/-- The segments consumed for `len` bytes do cover `len` bytes when the chain
holds that many. -/
theorem peek_need_cover (len : Int) :
    ∀ (chains : List (List Nat)) (len_so_far : Int),
      len ≤ len_so_far + (evbuffer_get_length chains : Int) →
      len ≤ len_so_far
        + (evbuffer_get_length (chains.take (peek_need len chains len_so_far)) : Int) := by
  intro chains
  induction chains with
  | nil => intro sofar h; simpa [peek_need] using h
  | cons c cs ih =>
    intro sofar h
    unfold peek_need
    by_cases h1 : len ≤ sofar
    · simp [h1, evbuffer_get_length_nil]
    · simp only [h1, if_false, List.take_succ_cons, evbuffer_get_length_cons]
      have := ih (sofar + c.length) (by
        rw [evbuffer_get_length_cons] at h; push_cast at h; omega)
      push_cast
      omega

/-- The extents `copy_evbuffer` walks over: for a non-negative request they are
the first `peek_need` segments of the input. -/
theorem copy_evbuffer_extents_nonneg (buffer : evbuffer) (len : Int) (hlen : 0 ≤ len) :
    ((evbuffer_peek buffer len (evbuffer_peek buffer len 0).1).2.take
        (evbuffer_peek buffer len (evbuffer_peek buffer len 0).1).1)
      = buffer.take (peek_need len buffer 0) := by
  have hneg : ¬ len < 0 := by omega
  simp only [evbuffer_peek, hneg, and_false, if_false]
  rw [evbuffer_peek_loop_nonneg len 0 hlen]
  simp only [Nat.zero_add]
  rw [evbuffer_peek_loop_nonneg len _ hlen]
  simp [List.take_take]

/-- The extents `copy_evbuffer` walks over are always first segments of the
input, whatever length was requested. -/
theorem copy_evbuffer_extents_take (buffer : evbuffer) (len : Int) (n_vec : Nat) :
    ∃ k, (evbuffer_peek buffer len n_vec).2.take (evbuffer_peek buffer len n_vec).1
      = buffer.take k := by
  obtain ⟨k, hk⟩ := evbuffer_peek_loop_take
    (if n_vec = 0 ∧ len < 0 then (evbuffer_get_length buffer : Int) else len) n_vec buffer 0 0 []
  refine ⟨min (evbuffer_peek buffer len n_vec).1 k, ?_⟩
  simp only [evbuffer_peek]
  rw [hk]
  simp [List.take_take]

/-! ## The copy loop -/

/-- When no write fails and nothing overflows, the loop appends the bytes from
offset `skip` on, up to the room left below `maxlen`. -/
theorem copy_evbuffer_loop_ok (wf : Nat → Bool) (hw : ∀ i, wf i = false) (maxlen : Nat)
    (hmax : maxlen < SIZE_MOD) :
    ∀ (v : List (List Nat)) (i skip written : Nat) (out : List Nat),
      written ≤ maxlen → skip ≤ evbuffer_get_length v →
      written + evbuffer_get_length v < SIZE_MOD →
      copy_evbuffer_loop wf maxlen v i skip written out =
        (written + min (maxlen - written) (evbuffer_get_length v - skip),
         out ++ ((v.flatten.drop skip).take (maxlen - written))) := by
  intro v
  induction v with
  | nil =>
    intro i skip written out _ hs _
    simp [copy_evbuffer_loop, evbuffer_get_length_nil]
  | cons iov rest ih =>
    intro i skip written out hwm hs hov
    rw [evbuffer_get_length_cons] at hs hov
    unfold copy_evbuffer_loop
    simp only [hw, Bool.false_eq_true, if_false, evbuffer_get_length_cons, List.flatten_cons]
    by_cases h1 : iov.length ≤ skip
    · simp only [h1, if_true]
      rw [ih (i + 1) (skip - iov.length) written out hwm (by omega) (by omega)]
      have e : iov.length + evbuffer_get_length rest - skip
          = evbuffer_get_length rest - (skip - iov.length) := by omega
      rw [e, List.drop_append_eq_append_drop, List.drop_of_length_le h1]
      simp
    · simp only [h1, if_false]
      have hadd : size_add written (iov.length - skip) = written + (iov.length - skip) :=
        size_add_eq _ _ (by omega)
      have hsub : size_sub maxlen written = maxlen - written := size_sub_eq _ _ hwm hmax
      rw [hadd, hsub]
      have hdrop : (iov ++ rest.flatten).drop skip = iov.drop skip ++ rest.flatten := by
        rw [List.drop_append_of_le_length (by omega)]
      rw [hdrop, List.take_append_eq_append_take, List.length_drop]
      by_cases h2 : maxlen < written + (iov.length - skip)
      · simp only [h2, if_true]
        rw [size_add_eq _ _ (by omega)]
        rw [ih (i + 1) 0 (written + (maxlen - written)) _ (by omega) (by omega) (by omega)]
        have e1 : maxlen - (written + (maxlen - written)) = 0 := by omega
        have e2 : maxlen - written - (iov.length - skip) = 0 := by omega
        simp only [e1, e2, List.take_zero, List.append_nil, Nat.zero_min, Nat.add_zero]
        congr 1
        omega
      · simp only [h2, if_false]
        rw [size_add_eq _ _ (by omega)]
        rw [ih (i + 1) 0 (written + (iov.length - skip)) _ (by omega) (by omega) (by omega)]
        have e1 : maxlen - (written + (iov.length - skip))
            = maxlen - written - (iov.length - skip) := by omega
        have e3 : (iov.drop skip).take (maxlen - written) = (iov.drop skip).take (iov.length - skip) := by
          rw [List.take_of_length_le (by rw [List.length_drop]; omega),
            List.take_of_length_le (by rw [List.length_drop])]
        rw [e1, e3]
        simp only [List.drop_zero, List.append_assoc, Nat.sub_zero]
        congr 1
        omega

/-- The loop never pushes `written` above `maxlen`, and what it appends to the
output queue is exactly `written` bytes long, whichever writes fail. -/
theorem copy_evbuffer_loop_bound (wf : Nat → Bool) (maxlen : Nat) (hmax : maxlen < SIZE_MOD) :
    ∀ (v : List (List Nat)) (i skip written : Nat) (out : List Nat),
      written ≤ maxlen → written + evbuffer_get_length v < SIZE_MOD →
      (copy_evbuffer_loop wf maxlen v i skip written out).1 ≤ maxlen ∧
      ∃ d, (copy_evbuffer_loop wf maxlen v i skip written out).2 = out ++ d ∧
        written + d.length = (copy_evbuffer_loop wf maxlen v i skip written out).1 := by
  intro v
  induction v with
  | nil =>
    intro i skip written out hwm _
    exact ⟨by simpa [copy_evbuffer_loop] using hwm, [], by simp [copy_evbuffer_loop]⟩
  | cons iov rest ih =>
    intro i skip written out hwm hov
    rw [evbuffer_get_length_cons] at hov
    unfold copy_evbuffer_loop
    by_cases h1 : iov.length ≤ skip
    · simp only [h1, if_true]
      exact ih (i + 1) (skip - iov.length) written out hwm (by omega)
    · simp only [h1, if_false]
      by_cases hf : wf i = true
      · simp only [hf, if_true]
        exact ⟨hwm, [], by simp⟩
      · simp only [hf, Bool.false_eq_true, if_false]
        have hadd : size_add written (iov.length - skip) = written + (iov.length - skip) :=
          size_add_eq _ _ (by omega)
        have hsub : size_sub maxlen written = maxlen - written := size_sub_eq _ _ hwm hmax
        rw [hadd, hsub]
        by_cases h2 : maxlen < written + (iov.length - skip)
        · simp only [h2, if_true]
          rw [size_add_eq _ _ (by omega)]
          obtain ⟨hle, d, hd, hlen⟩ := ih (i + 1) 0 (written + (maxlen - written))
            (out ++ (iov.drop skip).take (maxlen - written)) (by omega) (by omega)
          refine ⟨hle, (iov.drop skip).take (maxlen - written) ++ d, by rw [hd]; simp, ?_⟩
          rw [← hlen, List.length_append, List.length_take, List.length_drop]
          omega
        · simp only [h2, if_false]
          rw [size_add_eq _ _ (by omega)]
          obtain ⟨hle, d, hd, hlen⟩ := ih (i + 1) 0 (written + (iov.length - skip))
            (out ++ (iov.drop skip).take (iov.length - skip)) (by omega) (by omega)
          refine ⟨hle, (iov.drop skip).take (iov.length - skip) ++ d, by rw [hd]; simp, ?_⟩
          rw [← hlen, List.length_append, List.length_take, List.length_drop]
          omega

/-- When `skip` covers every byte of the extents the loop writes nothing. -/
theorem copy_evbuffer_loop_skip_all (wf : Nat → Bool) (maxlen : Nat) :
    ∀ (v : List (List Nat)) (i skip written : Nat) (out : List Nat),
      evbuffer_get_length v ≤ skip →
      copy_evbuffer_loop wf maxlen v i skip written out = (written, out) := by
  intro v
  induction v with
  | nil => intro i skip written out _; simp [copy_evbuffer_loop]
  | cons iov rest ih =>
    intro i skip written out hs
    rw [evbuffer_get_length_cons] at hs
    unfold copy_evbuffer_loop
    have h1 : iov.length ≤ skip := by omega
    simp only [h1, if_true]
    exact ih (i + 1) (skip - iov.length) written out (by omega)

/-! ## `copy_evbuffer` -/

theorem take_drop_append_left (V T : List Nat) (skip m : Nat) (h : skip + m ≤ V.length) :
    ((V ++ T).drop skip).take m = (V.drop skip).take m := by
  rw [List.drop_append_of_le_length (by omega),
    List.take_append_of_le_length (by rw [List.length_drop]; omega)]

/-- With every write succeeding and `skip` inside the input, `copy_evbuffer`
moves `min cap (L - skip)` bytes starting at offset `skip`, where `cap` is the
wrapped difference of high-watermark and queued output. -/
theorem copy_evbuffer_core (wf : Nat → Bool) (dst src : bufferevent) (skip : Nat)
    (hw : ∀ i, wf i = false)
    (hL : evbuffer_get_length src.input < 2 ^ 63)
    (hskip : skip ≤ evbuffer_get_length src.input) :
    copy_evbuffer wf dst src skip =
      (min (size_sub (get_write_hwm dst) dst.output.length)
          (evbuffer_get_length src.input - skip),
       with_output dst (dst.output ++
          (src.input.flatten.drop skip).take
            (min (size_sub (get_write_hwm dst) dst.output.length)
              (evbuffer_get_length src.input - skip)))) := by
  have hM : SIZE_MOD = 2 ^ 64 := rfl
  have hcap := size_sub_lt (get_write_hwm dst) dst.output.length
  unfold copy_evbuffer
  simp only []
  generalize size_sub (get_write_hwm dst) dst.output.length = cap at hcap ⊢
  have hsub : size_sub (evbuffer_get_length src.input) skip
      = evbuffer_get_length src.input - skip := size_sub_eq _ _ hskip (by omega)
  rw [hsub]
  have hmaxlen : (if cap < evbuffer_get_length src.input - skip then cap
      else evbuffer_get_length src.input - skip)
      = min cap (evbuffer_get_length src.input - skip) := by
    split_ifs <;> omega
  rw [hmaxlen]
  generalize hm : min cap (evbuffer_get_length src.input - skip) = m
  have hmle : m ≤ evbuffer_get_length src.input - skip := by omega
  have hadd : size_add m skip = m + skip := size_add_eq _ _ (by omega)
  rw [hadd]
  have hss : to_ssize (m + skip) = ((m + skip : Nat) : Int) := by
    unfold to_ssize
    have : (m + skip) % SIZE_MOD = m + skip := Nat.mod_eq_of_lt (by omega)
    rw [this, if_pos (by omega)]
  rw [hss, copy_evbuffer_extents_nonneg _ _ (by omega)]
  generalize hk : peek_need ((m + skip : Nat) : Int) src.input 0 = k
  have hcov := peek_need_cover ((m + skip : Nat) : Int) src.input 0 (by
    have : m + skip ≤ evbuffer_get_length src.input := by omega
    omega)
  rw [hk] at hcov
  have hcov2 : m + skip ≤ evbuffer_get_length (src.input.take k) := by omega
  have hle := evbuffer_get_length_take_le k src.input
  rw [copy_evbuffer_loop_ok wf hw m (by omega) _ 0 skip 0 dst.output (by omega) (by omega)
    (by omega)]
  have e1 : 0 + min (m - 0) (evbuffer_get_length (src.input.take k) - skip) = m := by omega
  have e2 : (((src.input.take k).flatten.drop skip).take (m - 0))
      = ((src.input.flatten.drop skip).take m) := by
    conv_rhs => rw [← List.take_append_drop k src.input, List.flatten_append]
    rw [Nat.sub_zero, take_drop_append_left _ _ _ _ (by
      rw [evbuffer_get_length_flatten]; omega)]
  simp only [e1, e2]

/-- C1: for every segment layout of the source queue (content `B`, length `L`),
every high-watermark `W` (positive or not), every queued output length `Q ≤ W`
and every `skip ≤ L`, when each `bufferevent_write` succeeds `copy_evbuffer`
returns `m = min (W - Q) (L - skip)` and appends to the output queue of `dst`
exactly the bytes `B[skip .. skip + m)`, leaving the rest of `dst` as it was.
(`W` is a `size_t` and `L` stays below `2 ^ 63`, as for every evbuffer.) -/
theorem copy_evbuffer_transfers_min (wf : Nat → Bool) (dst src : bufferevent) (skip : Nat)
    (hw : ∀ i, wf i = false) (hWs : get_write_hwm dst < SIZE_MOD)
    (hQ : dst.output.length ≤ get_write_hwm dst)
    (hL : evbuffer_get_length src.input < 2 ^ 63)
    (hskip : skip ≤ evbuffer_get_length src.input) :
    (copy_evbuffer wf dst src skip).1
        = min (get_write_hwm dst - dst.output.length) (evbuffer_get_length src.input - skip) ∧
    (copy_evbuffer wf dst src skip).2 =
      with_output dst (dst.output ++
          (src.input.flatten.drop skip).take
            (min (get_write_hwm dst - dst.output.length)
              (evbuffer_get_length src.input - skip))) := by
  rw [copy_evbuffer_core wf dst src skip hw hL hskip, size_sub_eq _ _ hQ hWs]
  exact ⟨rfl, rfl⟩

/-- Instance of C1: two segments, `W = 4`, `Q = 2`, `skip = 1`. -/
theorem copy_evbuffer_transfers_min_witness :
    (copy_evbuffer (fun _ => false) (mk_bev 4 [] [9, 9]) (mk_bev 0 [[1, 2], [3, 4]] []) 1).1
        = min (4 - 2) (4 - 1) ∧
    (copy_evbuffer (fun _ => false) (mk_bev 4 [] [9, 9]) (mk_bev 0 [[1, 2], [3, 4]] []) 1).2
        = mk_bev 4 [] [9, 9, 2, 3] :=
  copy_evbuffer_transfers_min (fun _ => false) (mk_bev 4 [] [9, 9])
    (mk_bev 0 [[1, 2], [3, 4]] []) 1 (fun _ => rfl) (by decide) (by decide) (by decide)
    (by decide)

/-- The count returned by `copy_evbuffer` never exceeds the wrapped cap
`(W - Q) mod 2 ^ 64`, and the bytes appended are as many as the count. -/
theorem copy_evbuffer_le_wrapped_cap (wf : Nat → Bool) (dst src : bufferevent) (skip : Nat)
    (hL : evbuffer_get_length src.input < SIZE_MOD) :
    (copy_evbuffer wf dst src skip).1 ≤ size_sub (get_write_hwm dst) dst.output.length ∧
    ∃ d, (copy_evbuffer wf dst src skip).2 = with_output dst (dst.output ++ d) ∧
      d.length = (copy_evbuffer wf dst src skip).1 := by
  have hcap := size_sub_lt (get_write_hwm dst) dst.output.length
  have hx := size_sub_lt (evbuffer_get_length src.input) skip
  unfold copy_evbuffer
  simp only []
  generalize size_sub (get_write_hwm dst) dst.output.length = cap at hcap ⊢
  generalize size_sub (evbuffer_get_length src.input) skip = x at hx ⊢
  generalize hm : (if cap < x then cap else x) = maxlen
  have hmc : maxlen ≤ cap := by rw [← hm]; split_ifs <;> omega
  obtain ⟨k, hk⟩ := copy_evbuffer_extents_take src.input (to_ssize (size_add maxlen skip))
    (evbuffer_peek src.input (to_ssize (size_add maxlen skip)) 0).1
  rw [hk]
  have hle := evbuffer_get_length_take_le k src.input
  obtain ⟨h1, d, hd, hlen⟩ := copy_evbuffer_loop_bound wf maxlen (by omega)
    (src.input.take k) 0 skip 0 dst.output (by omega) (by omega)
  exact ⟨by omega, d, by rw [hd], by omega⟩

/-- Whenever the queued output `Q` does not exceed the high-watermark `W`, one
call of `copy_evbuffer` returns at most `W - Q` and appends at most `W - Q`
bytes to the output queue of `dst`, for every source content, every `skip` and
every pattern of failing writes. -/
theorem copy_evbuffer_within_cap (wf : Nat → Bool) (dst src : bufferevent) (skip : Nat)
    (hWs : get_write_hwm dst < SIZE_MOD)
    (hQ : dst.output.length ≤ get_write_hwm dst)
    (hL : evbuffer_get_length src.input < SIZE_MOD) :
    (copy_evbuffer wf dst src skip).1 ≤ get_write_hwm dst - dst.output.length ∧
    ∃ d, (copy_evbuffer wf dst src skip).2 = with_output dst (dst.output ++ d) ∧
      d.length = (copy_evbuffer wf dst src skip).1 ∧
      d.length ≤ get_write_hwm dst - dst.output.length := by
  obtain ⟨h1, d, hd, hlen⟩ := copy_evbuffer_le_wrapped_cap wf dst src skip hL
  rw [size_sub_eq _ _ hQ hWs] at h1
  exact ⟨h1, d, hd, hlen, by omega⟩

/-- C2 fails on the code: with `W = 4` and `Q = 5` bytes queued, one byte more
than the watermark, the call returns 3 and appends all 3 available bytes, more
than `W - Q`; the subtraction of line 364 has wrapped.  With `Q = 4` the same
call transfers nothing. -/
theorem copy_evbuffer_cap_counterexample :
    (copy_evbuffer (fun _ => false) (mk_bev 4 [] [9, 9, 9, 9, 9]) (mk_bev 0 [[1, 2, 3]] []) 0)
      = (3, mk_bev 4 [] [9, 9, 9, 9, 9, 1, 2, 3]) ∧
    ¬ (((copy_evbuffer (fun _ => false) (mk_bev 4 [] [9, 9, 9, 9, 9])
          (mk_bev 0 [[1, 2, 3]] []) 0).1 : Int)
        ≤ (get_write_hwm (mk_bev 4 [] [9, 9, 9, 9, 9]) : Int)
            - ((mk_bev 4 [] [9, 9, 9, 9, 9]).output.length : Int)) ∧
    (copy_evbuffer (fun _ => false) (mk_bev 4 [] [9, 9, 9, 9]) (mk_bev 0 [[1, 2, 3]] []) 0)
      = (0, mk_bev 4 [] [9, 9, 9, 9]) := by
  decide

/-- C3: when `skip` is at least the number of bytes queued in the input of
`src` (equal, or strictly greater so that `length - skip` wraps), the call
returns 0 and leaves `dst` untouched, for every segment layout, every
watermark, every queued output and every pattern of failing writes. -/
theorem copy_evbuffer_skip_exhausts (wf : Nat → Bool) (dst src : bufferevent) (skip : Nat)
    (h : evbuffer_get_length src.input ≤ skip) :
    copy_evbuffer wf dst src skip = (0, dst) := by
  unfold copy_evbuffer
  simp only []
  generalize (if size_sub (get_write_hwm dst) dst.output.length
      < size_sub (evbuffer_get_length src.input) skip
    then size_sub (get_write_hwm dst) dst.output.length
    else size_sub (evbuffer_get_length src.input) skip) = maxlen
  obtain ⟨k, hk⟩ := copy_evbuffer_extents_take src.input (to_ssize (size_add maxlen skip))
    (evbuffer_peek src.input (to_ssize (size_add maxlen skip)) 0).1
  rw [hk]
  have hle := evbuffer_get_length_take_le k src.input
  rw [copy_evbuffer_loop_skip_all wf maxlen _ 0 skip 0 dst.output (by omega)]
  rfl

/-- Instance of C3 with `skip` strictly beyond the three queued bytes. -/
theorem copy_evbuffer_skip_exhausts_witness :
    evbuffer_get_length (mk_bev 0 [[1, 2], [3]] []).input ≤ 5 ∧
    copy_evbuffer (fun _ => false) (mk_bev 4 [] [9]) (mk_bev 0 [[1, 2], [3]] []) 5
      = (0, mk_bev 4 [] [9]) :=
  ⟨by decide, copy_evbuffer_skip_exhausts (fun _ => false) (mk_bev 4 [] [9])
    (mk_bev 0 [[1, 2], [3]] []) 5 (by decide)⟩

/-- C8 (amended): `copy_evbuffer` has no case for an absent watermark; a write
high-watermark of 0 is a cap like any other.  With `get_write_hwm dst = 0` and
an empty output queue (`Q = 0`) the cap is 0: for every source content, every
`skip` and every outcome of the writes the call returns 0 and leaves `dst` as
it was. -/
theorem copy_evbuffer_zero_watermark (wf : Nat → Bool) (dst src : bufferevent) (skip : Nat)
    (hW : get_write_hwm dst = 0) (hQ : dst.output.length = 0)
    (hL : evbuffer_get_length src.input < SIZE_MOD) :
    copy_evbuffer wf dst src skip = (0, dst) := by
  obtain ⟨h1, d, hd, hlen⟩ := copy_evbuffer_le_wrapped_cap wf dst src skip hL
  rw [hW, hQ] at h1
  have h0 : (copy_evbuffer wf dst src skip).1 = 0 := by
    have : size_sub 0 0 = 0 := by decide
    omega
  have hd0 : d = [] := List.length_eq_zero.mp (by omega)
  rw [hd0, List.append_nil] at hd
  exact Prod.ext h0 hd

/-- Instance of the amended C8: no watermark, nothing queued, three bytes
available in two segments, `skip = 1`. -/
theorem copy_evbuffer_zero_watermark_witness :
    copy_evbuffer (fun _ => false) (mk_bev 0 [] []) (mk_bev 0 [[1, 2], [3]] []) 1
      = (0, mk_bev 0 [] []) :=
  copy_evbuffer_zero_watermark (fun _ => false) (mk_bev 0 [] []) (mk_bev 0 [[1, 2], [3]] []) 1
    rfl rfl (by decide)

/-- C8 as stated fails at `Q = 0`: with no watermark and an empty output queue
the cap is 0 and nothing is transferred although three bytes are available. -/
theorem copy_evbuffer_no_watermark_counterexample :
    get_write_hwm (mk_bev 0 [] []) = 0 ∧
    copy_evbuffer (fun _ => false) (mk_bev 0 [] []) (mk_bev 0 [[1, 2, 3]] []) 0
      = (0, mk_bev 0 [] []) ∧
    (copy_evbuffer (fun _ => false) (mk_bev 0 [] []) (mk_bev 0 [[1, 2, 3]] []) 0).1
      ≠ evbuffer_get_length (mk_bev 0 [[1, 2, 3]] []).input - 0 := by
  decide

/-! ## `red_inet_ntop` -/

/-- For every `AF_INET6` address whose text fits into the buffer, the build
with assertions aborts: `inet_ntop` was told to write at `buffer + 1` and
returns that pointer, which `assert(retval == buffer)` rejects. -/
theorem red_inet_ntop_inet6_aborts (sa : sockaddr_any) (buffer_size : Nat)
    (h6 : sa.sin_family = AF_INET6) (h8 : 8 ≤ buffer_size)
    (hfit : (inet_ntop6_text sa.sin6_addr).length + 2 ≤ buffer_size) :
    red_inet_ntop false sa buffer_size = ntop_result.assert_failed := by
  have h46 : AF_INET6 ≠ AF_INET := by decide
  have hp : ¬ buffer_size < placeholder.length + 1 := by
    simp only [placeholder, List.length_cons, List.length_nil]; omega
  have h0 : buffer_size ≠ 0 := by omega
  have hf : (inet_ntop6_text sa.sin6_addr).length + 1 ≤ buffer_size - 1 := by omega
  unfold red_inet_ntop
  simp [hp, h0, h6, h46, inet_ntop, hf]

/-- For every address whose family is neither `AF_INET` nor `AF_INET6` and
every buffer of at least 8 bytes the text returned is the placeholder. -/
theorem red_inet_ntop_other_family (sa : sockaddr_any) (buffer_size : Nat)
    (h4 : sa.sin_family ≠ AF_INET) (h6 : sa.sin_family ≠ AF_INET6) (h8 : 8 ≤ buffer_size) :
    ntop_text (red_inet_ntop false sa buffer_size) = some "???:???" := by
  have hp : ¬ buffer_size < placeholder.length + 1 := by
    simp only [placeholder, List.length_cons, List.length_nil]; omega
  unfold red_inet_ntop
  simp only [hp, h4, h6, and_false, false_and, if_false]
  simp only [ntop_text, write_at, c_string_at, placeholder, List.take_zero, List.nil_append,
    List.drop_zero, List.cons_append, List.takeWhile]
  rfl

/-- C10 fails on the code for `AF_INET6`: for ::1 port 443 and a 64-byte buffer
the call aborts on `assert(retval == buffer)` instead of returning
`[::1]:443`; compiled without assertions it returns `[::]:443`.  The
`AF_INET` and unset-family cases give `1.2.3.4:80` and `???:???`. -/
theorem red_inet_ntop_inet6_assert_fails :
    red_inet_ntop false sample_inet6 64 = ntop_result.assert_failed ∧
    ntop_text (red_inet_ntop true sample_inet6 64) = some "[::]:443" ∧
    ntop_text (red_inet_ntop false sample_inet 64) = some "1.2.3.4:80" ∧
    ntop_text (red_inet_ntop false sample_unset 64) = some "???:???" := by
  decide

/-! ## `red_recv_udp_pkt` -/

theorem to_size_eq (x : Int) (h0 : 0 ≤ x) (h1 : x < 2 ^ 31) : ((to_size x : Nat) : Int) = x := by
  unfold to_size SIZE_MOD
  have : x % ((2 ^ 64 : Nat) : Int) = x := Int.emod_eq_of_lt h0 (by push_cast; omega)
  rw [this]
  exact Int.toNat_of_nonneg h0

theorem to_int_eq (x : Int) (h0 : -1 ≤ x) (h1 : x < 2 ^ 31) : to_int x = x := by
  unfold to_int
  omega

/-- The ancillary loop either finds no accepted entry and leaves `*toaddr` as
it was, or ends with the data of the last accepted entry. -/
theorem recv_cmsg_loop_last (cs : List cmsghdr) :
    ∀ t0 : sockaddr_in,
      (recv_cmsg_loop cs t0 = t0 ∧ ∀ x ∈ cs, is_origdst x = false) ∨
      ∃ pre e post, cs = pre ++ e :: post ∧ is_origdst e = true ∧
        (∀ x ∈ post, is_origdst x = false) ∧ recv_cmsg_loop cs t0 = e.data := by
  induction cs with
  | nil => intro t0; left; simp [recv_cmsg_loop]
  | cons c rest ih =>
    intro t0
    unfold recv_cmsg_loop
    by_cases hc : is_origdst c = true
    · simp only [hc, if_true]
      rcases ih c.data with ⟨h1, h2⟩ | ⟨pre, e, post, h1, h2, h3, h4⟩
      · right; exact ⟨[], c, rest, rfl, hc, h2, h1⟩
      · right; exact ⟨c :: pre, e, post, by rw [h1]; rfl, h2, h3, h4⟩
    · simp only [hc, Bool.false_eq_true, if_false]
      rcases ih t0 with ⟨h1, h2⟩ | ⟨pre, e, post, h1, h2, h3, h4⟩
      · left
        refine ⟨h1, ?_⟩
        intro x hx
        rcases List.mem_cons.mp hx with rfl | hx
        · simpa using hc
        · exact h2 x hx
      · right; exact ⟨c :: pre, e, post, by rw [h1]; rfl, h2, h3, h4⟩

/-- Entries the loop does not accept have no effect on `*toaddr`. -/
theorem recv_cmsg_loop_filter (cs : List cmsghdr) :
    ∀ t0 : sockaddr_in, recv_cmsg_loop (cs.filter is_origdst) t0 = recv_cmsg_loop cs t0 := by
  induction cs with
  | nil => intro t0; rfl
  | cons c rest ih =>
    intro t0
    by_cases hc : is_origdst c = true
    · simp only [List.filter_cons, hc, if_true, recv_cmsg_loop, ih]
    · simp only [List.filter_cons, hc, Bool.false_eq_true, if_false, recv_cmsg_loop, ih]

/-- The call `red_inet_ntop` returns, with some text, for every buffer of at
least 8 bytes unless the family is `AF_INET6` in a build with assertions. -/
theorem red_inet_ntop_returns (ndebug : Bool) (sa : sockaddr_any) (buffer_size : Nat)
    (h8 : 8 ≤ buffer_size) (h : sa.sin_family ≠ AF_INET6 ∨ ndebug = true) :
    ∃ b, red_inet_ntop ndebug sa buffer_size = ntop_result.returned b := by
  have hp : ¬ buffer_size < placeholder.length + 1 := by
    simp only [placeholder, List.length_cons, List.length_nil]; omega
  have h0 : buffer_size ≠ 0 := by omega
  unfold red_inet_ntop
  simp only [hp, h0, and_false, if_false]
  by_cases h4 : sa.sin_family = AF_INET
  · simp only [h4, if_true, inet_ntop]
    by_cases hfit : (inet_ntop4_text sa.sin_addr).length + 1 ≤ buffer_size
    · simp only [hfit, if_true, ne_eq, not_true_eq_false, and_false, if_false]
      split_ifs <;> exact ⟨_, rfl⟩
    · simp only [hfit, if_false]
      exact ⟨_, rfl⟩
  · simp only [h4, if_false]
    by_cases h6 : sa.sin_family = AF_INET6
    · have hn : ndebug = true := by
        rcases h with h | h
        · exact absurd h6 h
        · exact h
      subst hn
      simp only [h6, if_true, inet_ntop]
      by_cases hfit : (inet_ntop6_text sa.sin6_addr).length + 1 ≤ buffer_size - 1
      · simp only [hfit, if_true, Bool.true_eq_false, false_and, if_false]
        exact ⟨_, rfl⟩
      · simp only [hfit, if_false]
        exact ⟨_, rfl⟩
    · simp only [h6, if_false]
      exact ⟨_, rfl⟩

/-- The truncation branch returns -1 or does not return at all. -/
theorem recv_truncated_returned (ndebug : Bool) (r : recvmsg_result)
    (toaddr : Option sockaddr_in) (ret : Int) (t : Option sockaddr_in)
    (h : recv_truncated ndebug r toaddr = recv_result.returned ret t) : ret = -1 ∧ t = toaddr := by
  unfold recv_truncated at h
  split at h
  · exact absurd h (by simp)
  · exact absurd h (by simp)
  · simp only [recv_result.returned.injEq] at h
    exact ⟨h.1.symm, h.2.symm⟩

/-- The steps of `red_recv_udp_pkt` for a non-`NULL` `toaddr`, in order. -/
theorem red_recv_udp_pkt_some (ndebug : Bool) (buflen : Nat) (old : sockaddr_in)
    (r : recvmsg_result) :
    red_recv_udp_pkt ndebug buflen (some old) r =
      if r.ret = -1 then recv_result.returned (-1) (some old)
      else if (recv_cmsg_loop r.control sockaddr_in_zero).sin_family ≠ AF_INET then
        recv_result.returned (-1) (some (recv_cmsg_loop r.control sockaddr_in_zero))
      else if buflen ≤ to_size r.ret then
        recv_truncated ndebug r (some (recv_cmsg_loop r.control sockaddr_in_zero))
      else recv_result.returned (to_int r.ret)
        (some (recv_cmsg_loop r.control sockaddr_in_zero)) := by
  unfold red_recv_udp_pkt recv_final_checks
  simp

/-- The steps of `red_recv_udp_pkt` for a `NULL` `toaddr`, in order. -/
theorem red_recv_udp_pkt_none (ndebug : Bool) (buflen : Nat) (r : recvmsg_result) :
    red_recv_udp_pkt ndebug buflen none r =
      if r.ret = -1 then recv_result.returned (-1) none
      else if buflen ≤ to_size r.ret then recv_truncated ndebug r none
      else recv_result.returned (to_int r.ret) none := by
  unfold red_recv_udp_pkt recv_final_checks
  simp

/-- C4: `red_recv_udp_pkt` with a non-`NULL` `toaddr`, in either build.  (1) It
returns a value `≥ 0` only if some ancillary entry has level `SOL_IP`, type
`IP_ORIGDSTADDR`, `cmsg_len ≥ CMSG_LEN(sizeof(struct sockaddr_in))` and family
`AF_INET`, and then `*toaddr` is the `sockaddr_in` of the last such entry (no
accepted entry follows it).  (2) With no such entry the call returns -1.
(3) Whenever the decoded family is not `AF_INET` the call returns -1, and a
call that returns with `*toaddr` of another family returned -1.  (4) Entries
that are not accepted change neither the result nor `*toaddr`. -/
theorem red_recv_udp_pkt_origdst (ndebug : Bool) (buflen : Nat) (old : sockaddr_in)
    (r : recvmsg_result) :
    (∀ ret t, red_recv_udp_pkt ndebug buflen (some old) r = recv_result.returned ret t →
      0 ≤ ret →
      ∃ pre e post, r.control = pre ++ e :: post ∧ is_origdst e = true ∧
        e.data.sin_family = AF_INET ∧ (∀ x ∈ post, is_origdst x = false) ∧
        t = some e.data) ∧
    ((∀ x ∈ r.control, ¬ (is_origdst x = true ∧ x.data.sin_family = AF_INET)) →
      ∃ t, red_recv_udp_pkt ndebug buflen (some old) r = recv_result.returned (-1) t) ∧
    ((recv_cmsg_loop r.control sockaddr_in_zero).sin_family ≠ AF_INET →
      ∃ t, red_recv_udp_pkt ndebug buflen (some old) r = recv_result.returned (-1) t) ∧
    (∀ ret t, red_recv_udp_pkt ndebug buflen (some old) r = recv_result.returned ret (some t) →
      t.sin_family ≠ AF_INET → ret = -1) ∧
    red_recv_udp_pkt ndebug buflen (some old) (with_control r (r.control.filter is_origdst))
      = red_recv_udp_pkt ndebug buflen (some old) r := by
  have hdec : (recv_cmsg_loop r.control sockaddr_in_zero).sin_family ≠ AF_INET →
      ∃ t, red_recv_udp_pkt ndebug buflen (some old) r = recv_result.returned (-1) t := by
    intro hf
    rw [red_recv_udp_pkt_some]
    by_cases hp : r.ret = -1
    · simp only [hp, if_true]
      exact ⟨_, rfl⟩
    · simp only [hp, if_false, hf, ne_eq, not_false_eq_true, if_true]
      exact ⟨_, rfl⟩
  refine ⟨?_, ?_, hdec, ?_, ?_⟩
  · intro ret t hres hret
    rw [red_recv_udp_pkt_some] at hres
    by_cases hp : r.ret = -1
    · simp only [hp, if_true, recv_result.returned.injEq] at hres
      omega
    simp only [hp, if_false] at hres
    by_cases hf : (recv_cmsg_loop r.control sockaddr_in_zero).sin_family = AF_INET
    · simp only [hf, ne_eq, not_true_eq_false, if_false] at hres
      have ht : t = some (recv_cmsg_loop r.control sockaddr_in_zero) := by
        by_cases hb : buflen ≤ to_size r.ret
        · simp only [hb, if_true] at hres
          have := (recv_truncated_returned _ _ _ _ _ hres).1
          omega
        · simp only [hb, if_false, recv_result.returned.injEq] at hres
          exact hres.2.symm
      rcases recv_cmsg_loop_last r.control sockaddr_in_zero with
        ⟨h1, _⟩ | ⟨pre, e, post, h1, h2, h3, h4⟩
      · rw [h1] at hf
        exact absurd hf (by decide)
      · exact ⟨pre, e, post, h1, h2, by rw [← h4]; exact hf, h3, by rw [ht, h4]⟩
    · simp only [hf, ne_eq, not_false_eq_true, if_true, recv_result.returned.injEq] at hres
      omega
  · intro hnone
    apply hdec
    rcases recv_cmsg_loop_last r.control sockaddr_in_zero with
      ⟨h1, _⟩ | ⟨pre, e, post, h1, h2, _, h4⟩
    · rw [h1]; decide
    · rw [h4]
      intro hfam
      exact hnone e (by rw [h1]; simp) ⟨h2, hfam⟩
  · intro ret t hres hfam
    rw [red_recv_udp_pkt_some] at hres
    by_cases hp : r.ret = -1
    · simp only [hp, if_true, recv_result.returned.injEq] at hres
      exact hres.1.symm
    simp only [hp, if_false] at hres
    by_cases hf : (recv_cmsg_loop r.control sockaddr_in_zero).sin_family = AF_INET
    · simp only [hf, ne_eq, not_true_eq_false, if_false] at hres
      by_cases hb : buflen ≤ to_size r.ret
      · simp only [hb, if_true] at hres
        exact (recv_truncated_returned _ _ _ _ _ hres).1
      · simp only [hb, if_false, recv_result.returned.injEq, Option.some.injEq] at hres
        rw [← hres.2] at hfam
        exact absurd hf hfam
    · simp only [hf, ne_eq, not_false_eq_true, if_true, recv_result.returned.injEq] at hres
      exact hres.1.symm
  · rw [red_recv_udp_pkt_some, red_recv_udp_pkt_some]
    simp only [with_control, recv_cmsg_loop_filter, recv_truncated, inaddr_object]

/-- Instance of C4: a datagram whose ancillary data names 203.0.113.5:8080,
after an unrelated entry, decodes to that destination; with the ancillary
block stripped, or with only the unrelated entry, the call returns -1. -/
theorem red_recv_udp_pkt_origdst_witness :
    red_recv_udp_pkt false 1500 (some sample_src)
        (sample_recv 16 [sample_other_cmsg, origdst_cmsg sample_dst])
      = recv_result.returned 100 (some sample_dst) ∧
    (∃ t, red_recv_udp_pkt false 1500 (some sample_src) (sample_recv 16 [])
      = recv_result.returned (-1) t) ∧
    (∃ t, red_recv_udp_pkt false 1500 (some sample_src) (sample_recv 16 [sample_other_cmsg])
      = recv_result.returned (-1) t) :=
  ⟨by decide,
   (red_recv_udp_pkt_origdst false 1500 sample_src (sample_recv 16 [])).2.1 (by decide),
   (red_recv_udp_pkt_origdst false 1500 sample_src (sample_recv 16 [sample_other_cmsg])).2.1
     (by decide)⟩

/-- A call that returns a non-negative `r` received exactly `r` bytes and `r`
is below the buffer capacity, for every received length in the range of
`recvmsg` (`-1 ≤ pktlen ≤ INT_MAX`), every source address, either build. -/
theorem red_recv_udp_pkt_returned_exact (ndebug : Bool) (buflen : Nat)
    (toaddr : Option sockaddr_in) (r : recvmsg_result) (hlo : -1 ≤ r.ret)
    (hhi : r.ret < 2 ^ 31) (ret : Int) (t : Option sockaddr_in)
    (hres : red_recv_udp_pkt ndebug buflen toaddr r = recv_result.returned ret t)
    (hret : 0 ≤ ret) : ret = r.ret ∧ ret < (buflen : Int) := by
  have hfinal : ∀ ta, (if buflen ≤ to_size r.ret then recv_truncated ndebug r ta
      else recv_result.returned (to_int r.ret) ta) = recv_result.returned ret t →
      ret = r.ret ∧ ret < (buflen : Int) := by
    intro ta h
    by_cases hb : buflen ≤ to_size r.ret
    · simp only [hb, if_true] at h
      have := (recv_truncated_returned _ _ _ _ _ h).1
      omega
    · simp only [hb, if_false, recv_result.returned.injEq] at h
      have hi := to_int_eq r.ret hlo hhi
      have h0 : 0 ≤ r.ret := by rw [← hi, h.1]; exact hret
      have hs := to_size_eq r.ret h0 hhi
      rw [hi] at h
      exact ⟨h.1.symm, by omega⟩
  cases toaddr with
  | none =>
    rw [red_recv_udp_pkt_none] at hres
    by_cases hp : r.ret = -1
    · simp only [hp, if_true, recv_result.returned.injEq] at hres
      omega
    · simp only [hp, if_false] at hres
      exact hfinal _ hres
  | some old =>
    rw [red_recv_udp_pkt_some] at hres
    by_cases hp : r.ret = -1
    · simp only [hp, if_true, recv_result.returned.injEq] at hres
      omega
    simp only [hp, if_false] at hres
    by_cases hf : (recv_cmsg_loop r.control sockaddr_in_zero).sin_family = AF_INET
    · simp only [hf, ne_eq, not_true_eq_false, if_false] at hres
      exact hfinal _ hres
    · simp only [hf, ne_eq, not_false_eq_true, if_true, recv_result.returned.injEq] at hres
      omega

/-- A datagram that fills the buffer (`pktlen ≥ buflen`) is answered with -1
whenever the logging call returns: for every source address whose family is
not `AF_INET6`, and for every source address in a build without assertions. -/
theorem red_recv_udp_pkt_truncated_rejected (ndebug : Bool) (buflen : Nat)
    (toaddr : Option sockaddr_in) (r : recvmsg_result) (hhi : r.ret < 2 ^ 31)
    (h : r.msg_name.sin_family ≠ AF_INET6 ∨ ndebug = true)
    (hb : (buflen : Int) ≤ r.ret) :
    ∃ t, red_recv_udp_pkt ndebug buflen toaddr r = recv_result.returned (-1) t := by
  have hs := to_size_eq r.ret (by omega) hhi
  have hb2 : buflen ≤ to_size r.ret := by omega
  have hp : r.ret ≠ -1 := by omega
  have htr : ∀ ta, ∃ t, recv_truncated ndebug r ta = recv_result.returned (-1) t := by
    intro ta
    obtain ⟨b, hb⟩ := red_inet_ntop_returns ndebug (inaddr_object r) RED_INET_ADDRSTRLEN
      (by decide) h
    exact ⟨ta, by simp only [recv_truncated, hb]⟩
  cases toaddr with
  | none =>
    rw [red_recv_udp_pkt_none]
    simp only [hp, if_false, hb2, if_true]
    exact htr _
  | some old =>
    rw [red_recv_udp_pkt_some]
    simp only [hp, if_false, hb2, if_true]
    by_cases hf : (recv_cmsg_loop r.control sockaddr_in_zero).sin_family = AF_INET
    · simp only [hf, ne_eq, not_true_eq_false, if_false]
      exact htr _
    · simp only [hf, ne_eq, not_false_eq_true, if_true]
      exact ⟨_, rfl⟩

/-- In the build with assertions a datagram that fills the buffer and whose
source address has family `AF_INET6` makes the call abort inside
`red_inet_ntop`, whenever the text of the address fits the log buffer. -/
theorem red_recv_udp_pkt_truncated_inet6 (buflen : Nat) (r : recvmsg_result)
    (hhi : r.ret < 2 ^ 31) (h6 : r.msg_name.sin_family = AF_INET6)
    (hfit : (inet_ntop6_text (r.msg_name.sin_zero ++ r.after_name)).length + 2
      ≤ RED_INET_ADDRSTRLEN)
    (hb : (buflen : Int) ≤ r.ret) :
    red_recv_udp_pkt false buflen none r = recv_result.aborted := by
  have hs := to_size_eq r.ret (by omega) hhi
  have hb2 : buflen ≤ to_size r.ret := by omega
  have hp : r.ret ≠ -1 := by omega
  rw [red_recv_udp_pkt_none]
  simp only [hp, if_false, hb2, if_true, recv_truncated]
  rw [red_inet_ntop_inet6_aborts (inaddr_object r) RED_INET_ADDRSTRLEN h6 (by decide) hfit]

/-- C5 fails on the code: a 100-byte datagram received into a 100-byte buffer
from a source of family `AF_INET6` does not make the call return -1; the
build with assertions aborts inside the `red_inet_ntop` call of the log line.
Without assertions, and for an `AF_INET` source, -1 is returned. -/
theorem red_recv_udp_pkt_truncated_aborts :
    (100 : Int) ≤ sample_recv6.ret ∧
    red_recv_udp_pkt false 100 none sample_recv6 = recv_result.aborted ∧
    red_recv_udp_pkt true 100 none sample_recv6 = recv_result.returned (-1) none ∧
    red_recv_udp_pkt false 100 none (sample_recv 16 []) = recv_result.returned (-1) none := by
  decide

/-- The result of `red_recv_udp_pkt` does not depend on the source-address
length `recvmsg` reported: the length check reads the local `addrlen`, which
still holds its initial value. -/
theorem red_recv_udp_pkt_ignores_namelen (ndebug : Bool) (buflen : Nat)
    (toaddr : Option sockaddr_in) (r : recvmsg_result) (namelen : Nat) :
    red_recv_udp_pkt ndebug buflen toaddr (with_namelen r namelen)
      = red_recv_udp_pkt ndebug buflen toaddr r :=
  rfl

/-- C9 fails on the code: a receive that reports a source-address length of 28
(or of 0) instead of `sizeof(struct sockaddr_in)` is returned as a success, in
either build. -/
theorem red_recv_udp_pkt_namelen_unchecked (ndebug : Bool) :
    (sample_recv 28 []).msg_namelen ≠ sizeof_sockaddr_in ∧
    red_recv_udp_pkt ndebug 1500 none (sample_recv 28 []) = recv_result.returned 100 none ∧
    (sample_recv 0 [origdst_cmsg sample_dst]).msg_namelen ≠ sizeof_sockaddr_in ∧
    red_recv_udp_pkt ndebug 1500 (some sockaddr_in_zero)
        (sample_recv 0 [origdst_cmsg sample_dst])
      = recv_result.returned 100 (some sample_dst) := by
  cases ndebug <;> decide

/-! ## Relay set-up -/

theorem relay_fail_no_bev (w : world) (fd : Int) (hfd : fd ≠ -1) :
    relay_fail (sys_socket w fd) 0 fd = (0, { w with closed := w.closed ++ [fd] }) := by
  simp [relay_fail, sys_socket, hfd, redsocks_close, sys_close]

theorem relay_fail_with_bev (w : world) (fd : Int) (ptr : Nat) (hfd : fd ≠ -1) (hp : ptr ≠ 0)
    (c : List Int) (t : Option Nat) :
    relay_fail { world_with_relay w fd ptr t with connects := c } ptr fd
      = (0, { w with closed := w.closed ++ [fd], freed := w.freed ++ [ptr], connects := c }) := by
  simp [relay_fail, world_with_relay, hfd, hp, redsocks_close, sys_close, bufferevent_free,
    bufferevent_disable, with_bevs, modify_bev, find_bev, remove_bev, new_bev, bev_disable,
    BEV_OPT_CLOSE_ON_FREE]

theorem prepare_reaches_bev (w : world) (fd : Int) (ptr : Nat) (hfd : fd ≠ -1) (hp : ptr ≠ 0) :
    bufferevent_enable (bufferevent_socket_new (sys_socket w fd) ptr fd 0) ptr false true
      = { world_with_relay w fd ptr none with connects := w.connects } := by
  simp [bufferevent_enable, bufferevent_socket_new, sys_socket, hfd, hp, with_bevs, modify_bev,
    new_bev, bev_enable, world_with_relay]

/-- What `red_prepare_relay` returns in each case. -/
theorem red_prepare_relay_cases (sys : syscalls) (ifname : Option String) (w : world) :
    (prepare_step_failed sys ifname ∧
      red_prepare_relay sys ifname w =
        (0, { w with
              closed := w.closed ++ (if sys.socket = -1 then [] else [sys.socket]),
              freed := w.freed ++
                (if prepare_bev_created sys ifname then [sys.bufferevent_socket_new] else []) })) ∨
    (¬ prepare_step_failed sys ifname ∧ sys.bufferevent_socket_new ≠ 0 ∧
      red_prepare_relay sys ifname w =
        (sys.bufferevent_socket_new,
          world_with_relay w sys.socket sys.bufferevent_socket_new none)) := by
  unfold red_prepare_relay
  simp only []
  by_cases h1 : sys.socket = -1
  · left
    refine ⟨Or.inl h1, ?_⟩
    simp [h1, relay_fail, sys_socket, prepare_bev_created]
  by_cases h2 : ifname_given ifname = true ∧ sys.setsockopt ≠ 0
  · left
    refine ⟨Or.inr (Or.inl h2), ?_⟩
    simp only [h1, h2, if_false, and_self, if_true]
    rw [relay_fail_no_bev w _ h1]
    simp [prepare_bev_created, h2]
  by_cases h3 : sys.make_nonblocking ≠ 0
  · left
    refine ⟨Or.inr (Or.inr (Or.inl h3)), ?_⟩
    simp only [h1, h2, h3, if_false, if_true, ne_eq, not_false_eq_true]
    rw [relay_fail_no_bev w _ h1]
    have : ¬ prepare_bev_created sys ifname := fun h => h3 h.2.2.1
    simp [this]
  by_cases h4 : sys.bufferevent_socket_new = 0
  · left
    refine ⟨Or.inr (Or.inr (Or.inr (Or.inl h4))), ?_⟩
    simp only [h1, h2, h3, h4, if_false, if_true]
    have e : bufferevent_socket_new (sys_socket w sys.socket) 0 sys.socket 0
        = sys_socket w sys.socket := by simp [bufferevent_socket_new]
    rw [e, relay_fail_no_bev w _ h1]
    have : ¬ prepare_bev_created sys ifname := fun h => h.2.2.2 h4
    simp [this]
  have hc : prepare_bev_created sys ifname := ⟨h1, h2, not_not.mp h3, h4⟩
  simp only [h1, h2, h3, h4, if_false]
  rw [prepare_reaches_bev w _ _ h1 h4]
  by_cases h5 : sys.bufferevent_enable ≠ 0
  · left
    refine ⟨Or.inr (Or.inr (Or.inr (Or.inr (Or.inl h5)))), ?_⟩
    simp only [h5, if_true, ne_eq, not_false_eq_true]
    rw [relay_fail_with_bev w _ _ h1 h4]
    simp [hc, h1]
  by_cases h6 : sys.apply_tcp_keepalive ≠ 0
  · left
    refine ⟨Or.inr (Or.inr (Or.inr (Or.inr (Or.inr h6)))), ?_⟩
    simp only [h5, h6, if_false, if_true, ne_eq, not_false_eq_true]
    rw [relay_fail_with_bev w _ _ h1 h4]
    simp [hc, h1]
  right
  refine ⟨?_, h4, ?_⟩
  · rintro (h | h | h | h | h | h)
    · exact h1 h
    · exact h2 h
    · exact h3 h
    · exact h4 h
    · exact h5 h
    · exact h6 h
  · simp only [h5, h6, if_false]
    rfl

/-- C6: `red_prepare_relay` is all-or-nothing.  Whatever the answers of the
system calls, it returns `NULL` exactly when some step failed; on every `NULL`
return the open descriptors and the live bufferevents are what they were
before the call, the socket it created (if any) was closed exactly once and the
bufferevent it created (if any) was freed exactly once; on a non-`NULL` return
the new socket and its bufferevent are the only additions. -/
theorem red_prepare_relay_all_or_nothing (sys : syscalls) (ifname : Option String) (w : world) :
    ((red_prepare_relay sys ifname w).1 = 0 ↔ prepare_step_failed sys ifname) ∧
    ((red_prepare_relay sys ifname w).1 = 0 →
      (red_prepare_relay sys ifname w).2.fds = w.fds ∧
      (red_prepare_relay sys ifname w).2.bevs = w.bevs ∧
      (red_prepare_relay sys ifname w).2.closed
        = w.closed ++ (if sys.socket = -1 then [] else [sys.socket]) ∧
      (red_prepare_relay sys ifname w).2.freed
        = w.freed ++
          (if prepare_bev_created sys ifname then [sys.bufferevent_socket_new] else [])) ∧
    ((red_prepare_relay sys ifname w).1 ≠ 0 →
      red_prepare_relay sys ifname w
        = (sys.bufferevent_socket_new,
            world_with_relay w sys.socket sys.bufferevent_socket_new none)) := by
  rcases red_prepare_relay_cases sys ifname w with ⟨hf, he⟩ | ⟨hf, hp, he⟩
  · rw [he]
    exact ⟨⟨fun _ => hf, fun _ => rfl⟩, fun _ => ⟨rfl, rfl, rfl, rfl⟩, fun h => absurd rfl h⟩
  · rw [he]
    exact ⟨⟨fun h => absurd h hp, fun h => absurd h hf⟩, fun h => absurd h hp, fun _ => rfl⟩

/-- Instance of C6: the keepalive step fails after socket 5 and bufferevent 7
were created; both are released once and nothing else changes. -/
theorem red_prepare_relay_all_or_nothing_witness :
    red_prepare_relay { sample_sys 95 115 with apply_tcp_keepalive := -1 } (some "eth0")
        sample_world
      = (0, { sample_world with closed := [5], freed := [7] }) ∧
    (red_prepare_relay { sample_sys 95 115 with apply_tcp_keepalive := -1 } (some "eth0")
        sample_world).2.fds = sample_world.fds :=
  ⟨by decide,
   ((red_prepare_relay_all_or_nothing { sample_sys 95 115 with apply_tcp_keepalive := -1 }
      (some "eth0") sample_world).2.1 (by decide)).1⟩

theorem getfd_world_with_relay (w : world) (fd : Int) (ptr : Nat) (t : Option Nat) :
    bufferevent_getfd (world_with_relay w fd ptr t) ptr = fd := by
  simp [bufferevent_getfd, world_with_relay, find_bev, new_bev]

theorem set_timeouts_world_with_relay (w : world) (fd : Int) (ptr : Nat) (t : Nat) :
    bufferevent_set_timeouts (world_with_relay w fd ptr none) ptr t
      = world_with_relay w fd ptr (some t) := by
  simp [bufferevent_set_timeouts, world_with_relay, with_bevs, modify_bev, new_bev,
    bev_set_timeout]

/-- C7 (amended): when `red_prepare_relay` succeeded and the fast-open
`sendto` fails with `EOPNOTSUPP`, `EPROTONOSUPPORT` or `ENOPROTOOPT`,
`red_connect_relay_tfo` issues the classic `connect` with `*len = 0`.  If that
`connect` returns 0 or fails with `EINPROGRESS`, the result is the non-`NULL`
bufferevent, write-enabled, neither freed nor closed.  If that `connect` fails
otherwise, the bufferevent is freed, the socket closed and `NULL` returned. -/
theorem red_connect_relay_tfo_unsupported (sys : syscalls) (ifname : Option String)
    (timeout_write : Option Nat) (len : Nat) (w : world)
    (hprep : (red_prepare_relay sys ifname w).1 ≠ 0)
    (hs : sys.sendto = -1)
    (he : sys.sendto_errno = EOPNOTSUPP ∨ sys.sendto_errno = EPROTONOSUPPORT
      ∨ sys.sendto_errno = ENOPROTOOPT) :
    sys.bufferevent_socket_new ≠ 0 ∧
    (sys.connect = 0 ∨ sys.connect_errno = EINPROGRESS →
      red_connect_relay_tfo sys ifname timeout_write len w
        = (sys.bufferevent_socket_new, 0,
            { world_with_relay w sys.socket sys.bufferevent_socket_new timeout_write with
              connects := w.connects ++ [sys.socket] })) ∧
    (¬ (sys.connect = 0 ∨ sys.connect_errno = EINPROGRESS) →
      red_connect_relay_tfo sys ifname timeout_write len w
        = (0, 0, { w with closed := w.closed ++ [sys.socket],
                          freed := w.freed ++ [sys.bufferevent_socket_new],
                          connects := w.connects ++ [sys.socket] })) := by
  rcases red_prepare_relay_cases sys ifname w with ⟨_, hf⟩ | ⟨hnf, hp, hok⟩
  · rw [hf] at hprep
    exact absurd rfl hprep
  have hfd : sys.socket ≠ -1 := fun h => hnf (Or.inl h)
  have hnot1 : ¬ (sys.sendto_errno = EINPROGRESS ∨ sys.sendto_errno = EAGAIN
      ∨ sys.sendto_errno = EWOULDBLOCK) := by
    rcases he with h | h | h <;> rw [h] <;> decide
  have hstep : red_connect_relay_tfo sys ifname timeout_write len w
      = tfo_fallback sys (world_with_relay w sys.socket sys.bufferevent_socket_new timeout_write)
          sys.bufferevent_socket_new sys.socket := by
    unfold red_connect_relay_tfo
    simp only [hok, hp, ne_eq, not_false_eq_true, if_true, hs, hnot1, he, if_false]
    cases timeout_write with
    | none => simp only [getfd_world_with_relay]
    | some t => simp only [getfd_world_with_relay, set_timeouts_world_with_relay]
  refine ⟨hp, ?_, ?_⟩
  · intro hc
    have hcn : ¬ (sys.connect ≠ 0 ∧ sys.connect_errno ≠ EINPROGRESS) := by
      rintro ⟨h1, h2⟩
      rcases hc with h | h
      · exact h1 h
      · exact h2 h
    rw [hstep]
    unfold tfo_fallback
    simp only [hcn, if_false]
    rfl
  · intro hc
    have hcn : sys.connect ≠ 0 ∧ sys.connect_errno ≠ EINPROGRESS :=
      ⟨fun h => hc (Or.inl h), fun h => hc (Or.inr h)⟩
    rw [hstep]
    unfold tfo_fallback
    simp only [hcn, and_self, if_true, ne_eq, not_false_eq_true]
    have := relay_fail_with_bev w sys.socket sys.bufferevent_socket_new hfd hp
      (w.connects ++ [sys.socket]) timeout_write
    simp only [sys_connect]
    rw [show ({ world_with_relay w sys.socket sys.bufferevent_socket_new timeout_write with
          connects := (world_with_relay w sys.socket sys.bufferevent_socket_new
            timeout_write).connects ++ [sys.socket] } : world)
        = { world_with_relay w sys.socket sys.bufferevent_socket_new timeout_write with
          connects := w.connects ++ [sys.socket] } from rfl]
    rw [this]

/-- Instance of the amended C7: `sendto` fails with `EOPNOTSUPP`, the classic
`connect` answers `EINPROGRESS`; bufferevent 7 on socket 5 is returned alive,
write-enabled, with `*len = 0`. -/
theorem red_connect_relay_tfo_unsupported_witness :
    red_connect_relay_tfo (sample_sys EOPNOTSUPP EINPROGRESS) none (some 10) 12 sample_world
      = (7, 0, { world_with_relay sample_world 5 7 (some 10) with connects := [5] }) :=
  (red_connect_relay_tfo_unsupported (sample_sys EOPNOTSUPP EINPROGRESS) none (some 10) 12
    sample_world (by decide) rfl (Or.inl rfl)).2.1 (Or.inr rfl)

/-- C7 as stated fails: `sendto` fails with `EOPNOTSUPP` and the classic
`connect` of the fallback path is refused; the call returns `NULL`, having
freed the bufferevent and closed the socket. -/
theorem red_connect_relay_tfo_unsupported_counterexample :
    (red_prepare_relay (sample_sys EOPNOTSUPP ECONNREFUSED) none sample_world).1 ≠ 0 ∧
    (sample_sys EOPNOTSUPP ECONNREFUSED).sendto = -1 ∧
    (sample_sys EOPNOTSUPP ECONNREFUSED).sendto_errno = EOPNOTSUPP ∧
    red_connect_relay_tfo (sample_sys EOPNOTSUPP ECONNREFUSED) none (some 10) 12 sample_world
      = (0, 0, { sample_world with closed := [5], freed := [7], connects := [5] }) := by
  decide

end Redsocks
